import Mathlib

/-!
Verification of the reconciliation core of caldav-canvas-gradescope.

Shallow embedding of `src/caldav_sync.py` (`_normalize_dt`, the server uid
map construction and the per-record loop of `sync_todos`) and of
`src/gradescope.py` (`make_todo`).

Boundary collaborators (the caldav network client, the icalendar codec, the
gradescope API) are modelled as oracles: each server item arrives either
parsed or as a parse failure, and the outcome of each create or save call on
the calendar collaborator is an input (`CreateOutcome` / `SaveOutcome`),
since in the source it depends on which methods the external library object
exposes and on whether the network call throws.
-/

namespace CCG

/-- Python `date` (year, month, day). -/
structure Date where
  year : Int
  month : Nat
  day : Nat
deriving DecidableEq, Repr

/-- Python `datetime`: `datetime(y, m, d)` defaults hour, minute, second and
microsecond to 0 and tzinfo to None (naive). -/
structure Datetime where
  year : Int
  month : Nat
  day : Nat
  hour : Nat
  minute : Nat
  second : Nat
  microsecond : Nat
  tz : Option Int
deriving DecidableEq, Repr

/-- `datetime(val.year, val.month, val.day)`: naive midnight of a date. -/
def midnight (d : Date) : Datetime :=
  { year := d.year, month := d.month, day := d.day
    hour := 0, minute := 0, second := 0, microsecond := 0, tz := none }

/-- The inner value exposed by a wrapper through its `dt` attribute: a
datetime, a date, or something else (e.g. a duration or another wrapper). -/
inductive Inner where
  | dt (d : Datetime)
  | dateOnly (d : Date)
  | other
deriving DecidableEq, Repr

/-- The possible shapes of a DUE value handed to `_normalize_dt`:
`absent` is Python None; `dt` a datetime instance; `dateOnly` a date that is
not a datetime; `wrapped` an object exposing a `dt` attribute (icalendar
vDDDTypes); `raising` an object whose attribute access raises (the
`except Exception` branch); `other` anything else. -/
inductive DueVal where
  | absent
  | dt (d : Datetime)
  | dateOnly (d : Date)
  | wrapped (inner : Inner)
  | raising
  | other
deriving DecidableEq, Repr

/-- Embedding of `_normalize_dt` (src/caldav_sync.py lines 35-59).
None stays None; a datetime is returned unchanged; a date becomes naive
midnight; a wrapper is unwrapped one level through `dt` (datetime unchanged,
date to midnight, anything else falls through to None); an exception inside
the try block is swallowed and yields None; everything else yields None. -/
def _normalize_dt : DueVal → Option Datetime
  | DueVal.absent => none
  | DueVal.dt d => some d
  | DueVal.dateOnly d => some (midnight d)
  | DueVal.wrapped (Inner.dt d) => some d
  | DueVal.wrapped (Inner.dateOnly d) => some (midnight d)
  | DueVal.wrapped Inner.other => none
  | DueVal.raising => none
  | DueVal.other => none

/-- An icalendar VTODO component, reduced to the properties the sync core
reads or writes: UID, SUMMARY, DUE, STATUS, plus DESCRIPTION and CATEGORIES
which `make_todo` sets. An `Option` field is None when the property is
absent from the component; `str(...)` of a present text property is the
identity on the carried string. -/
structure VTodo where
  uid : Option String
  summary : Option String
  due : DueVal
  status : Option String
  description : Option String
  categories : List String
deriving DecidableEq, Repr

/-- The server uid map: insertion order preserved, lookup by key.
Mirrors the Python dict `server_map` restricted to the VTODO component
(the server object and calendar of each entry only matter to the
persistence collaborator, modelled by `SaveOutcome`). -/
def SMap : Type := List (String × VTodo)

/-- Python dict lookup `server_map.get(uid)`. -/
def lookupMap : SMap → String → Option VTodo
  | [], _ => none
  | (k, v) :: rest, u => if k = u then some v else lookupMap rest u

/-- Python dict assignment `server_map[uid] = entry`: overwrite in place if
the key exists, else append. -/
def mapInsert : SMap → String → VTodo → SMap
  | [], u, v => [(u, v)]
  | (k, w) :: rest, u, v =>
      if k = u then (k, v) :: rest else (k, w) :: mapInsert rest u v

/-- In-place mutation `server_vtodo['STATUS'] = st` of the component stored
in the map under key `u`. -/
def setStatus : SMap → String → String → SMap
  | [], _, _ => []
  | (k, v) :: rest, u, st =>
      if k = u then (k, { v with status := some st }) :: rest
      else (k, v) :: setStatus rest u st

/-- One item of the server todo list, as seen after the codec boundary:
either `_extract_vtodo_and_calendar` (or the UID read) raised, or it
produced a parsed VTODO component. -/
inductive ServerItem where
  | parseError
  | parsed (v : VTodo)
deriving DecidableEq, Repr

/-- Loop body of the uid map construction (src/caldav_sync.py lines
185-194): a parse failure is logged and skipped; a component whose UID is
absent gives `uid = None`; `if uid:` also rejects the empty string;
otherwise the entry is inserted (dict semantics: last write wins). -/
def buildServerMapAux (m : SMap) : List ServerItem → SMap
  | [] => m
  | ServerItem.parseError :: rest => buildServerMapAux m rest
  | ServerItem.parsed v :: rest =>
      match v.uid with
      | none => buildServerMapAux m rest
      | some u =>
          if u = "" then buildServerMapAux m rest
          else buildServerMapAux (mapInsert m u v) rest

/-- `server_map` built from the fetched server todos. -/
def buildServerMap (items : List ServerItem) : SMap :=
  buildServerMapAux [] items

/-- Outcome of the create collaborator call for one local record
(src/caldav_sync.py lines 211-227): `created` when one of `add_todo`,
`add_event` or `save` exists on the calendar and returns; `attempted` when
none of the three exists (the `created` flag stays False); `threw e` when
the call raises with message `str(e)`. -/
inductive CreateOutcome where
  | created
  | attempted
  | threw (msg : String)
deriving DecidableEq, Repr

/-- Outcome of the persistence collaborator call for one modified server
record (src/caldav_sync.py lines 250-276): `saved` when one of `save`,
`put`, `_put` or the client fallback succeeds; `attempted` when no method
applies or the fallback swallowed its exception (the `updated` flag stays
False); `threw e` when the try block raises with message `str(e)`. -/
inductive SaveOutcome where
  | saved
  | attempted
  | threw (msg : String)
deriving DecidableEq, Repr

/-- The collaborator outcomes available while handling one local record. -/
structure RecEnv where
  createRes : CreateOutcome
  saveRes : SaveOutcome
deriving DecidableEq, Repr

/-- `str(server_vtodo.get('STATUS'))`: Python `str(None)` is "None". -/
def statusStr : Option String → String
  | none => "None"
  | some s => s

/-- The action dicts appended to `actions`, one constructor per literal
`action` value in the source, each carrying the extra keys that dict has. -/
inductive Action where
  | skipped (uid : Option String) (reason : String)
  | created (uid : String)
  | create_attempted (uid : String)
  | create_failed (uid : String) (error : String)
  | preserved_server_status (uid : String) (server_status : String)
  | set_needs_action (uid : String)
  | set_needs_action_attempted (uid : String)
  | update_failed (uid : String) (error : String)
deriving DecidableEq, Repr

/-- One iteration of the `for local in todos` loop (src/caldav_sync.py
lines 198-281). A local UID of None is skipped before any map access; a uid
absent from the map takes the create branch (the map is untouched); a
present uid is compared on SUMMARY (absent normalized to "") and on
normalized DUE; a match preserves the server status, a mismatch sets
STATUS to NEEDS-ACTION on the stored component before the save attempt, so
the in-memory mutation survives even a throwing save. -/
def sync_step (m : SMap) (ltodo : VTodo) (env : RecEnv) : Action × SMap :=
  match ltodo.uid with
  | none => (Action.skipped none "local todo missing UID", m)
  | some u =>
      match lookupMap m u with
      | none =>
          match env.createRes with
          | CreateOutcome.created => (Action.created u, m)
          | CreateOutcome.attempted => (Action.create_attempted u, m)
          | CreateOutcome.threw e => (Action.create_failed u e, m)
      | some r =>
          let server_summary := (r.summary).getD ""
          let local_summary := (ltodo.summary).getD ""
          let server_due := _normalize_dt r.due
          let local_due := _normalize_dt ltodo.due
          if server_summary = local_summary ∧
             (server_due = local_due ∨ (server_due = none ∧ local_due = none)) then
            (Action.preserved_server_status u (statusStr r.status), m)
          else
            let m2 := setStatus m u "NEEDS-ACTION"
            match env.saveRes with
            | SaveOutcome.saved => (Action.set_needs_action u, m2)
            | SaveOutcome.attempted => (Action.set_needs_action_attempted u, m2)
            | SaveOutcome.threw e => (Action.update_failed u e, m2)

/-- The reconciliation loop of `sync_todos` over the already-built server
map, threading the in-memory server state and collecting one action per
local record in input order. Each local todo is paired with the
collaborator outcomes available while handling it. -/
def sync_todos (m : SMap) : List (VTodo × RecEnv) → List Action × SMap
  | [] => ([], m)
  | (t, e) :: rest =>
      let r := sync_step m t e
      let r2 := sync_todos r.2 rest
      (r.1 :: r2.1, r2.2)

/-- The uid recorded in an action dict. -/
def actionUid : Action → Option String
  | Action.skipped u _ => u
  | Action.created u => some u
  | Action.create_attempted u => some u
  | Action.create_failed u _ => some u
  | Action.preserved_server_status u _ => some u
  | Action.set_needs_action u => some u
  | Action.set_needs_action_attempted u => some u
  | Action.update_failed u _ => some u

/-- Whether an action carries uid `u`. -/
def byUid (u : String) (a : Action) : Bool :=
  decide (actionUid a = some u)

/-- Whether an action is one of the two create-branch success shapes. -/
def isCreateAct (u : String) : Action → Bool
  | Action.created v => decide (v = u)
  | Action.create_attempted v => decide (v = u)
  | _ => false

/-- Whether an action comes from the create branch at all. -/
def isCreatePath : Action → Bool
  | Action.created _ => true
  | Action.create_attempted _ => true
  | Action.create_failed _ _ => true
  | _ => false

/-- Whether an action is one of the two mismatch-branch success shapes. -/
def isMarkNA (u : String) : Action → Bool
  | Action.set_needs_action v => decide (v = u)
  | Action.set_needs_action_attempted v => decide (v = u)
  | _ => false

/-- Whether an action is a skipped action. -/
def isSkippedAct : Action → Bool
  | Action.skipped _ _ => true
  | _ => false

/-- A server item that the uid map construction drops: a parse failure, a
component without UID, or a component whose UID is the empty string. -/
def badItem (i : ServerItem) : Prop :=
  i = ServerItem.parseError
    ∨ ∃ v, i = ServerItem.parsed v ∧ (v.uid = none ∨ v.uid = some "")

/-- Relation between a server record before and after the sync pass: every
field except STATUS is unchanged, and STATUS is either unchanged or the
literal NEEDS-ACTION. -/
def statusOnlyChange (r r2 : VTodo) : Prop :=
  r2.uid = r.uid ∧ r2.summary = r.summary ∧ r2.due = r.due
    ∧ r2.description = r.description ∧ r2.categories = r.categories
    ∧ (r2.status = r.status ∨ r2.status = some "NEEDS-ACTION")

/-- A Gradescope assignment as returned by the gradescopeapi collaborator,
reduced to the fields `make_todo` reads. -/
structure Assignment where
  assignment_id : String
  name : String
  due_date : DueVal
  submissions_status : String
deriving DecidableEq, Repr

/-- A Gradescope course, reduced to the field `make_todo` reads. -/
structure Course where
  name : String
deriving DecidableEq, Repr

/-- Embedding of `make_todo` (src/gradescope.py lines 22-31): `todo.uid`
gets the service-prefixed id, `todo.end` sets DUE to the due date as-is,
categories are the service name and the course name, summary is the
assignment name, description the source URL, and status is COMPLETED
exactly for a "Submitted" submission status. -/
def make_todo (course_id : String) (course : Course) (a : Assignment) : VTodo :=
  { uid := some ("gradescope-" ++ a.assignment_id)
    summary := some a.name
    due := a.due_date
    status := some (if a.submissions_status = "Submitted"
                    then "COMPLETED" else "NEEDS-ACTION")
    description := some ("https://www.gradescope.com/courses/" ++ course_id
                         ++ "/assignments/" ++ a.assignment_id)
    categories := ["Gradescope", course.name] }

/-- Concrete server record used to instantiate theorems on closed inputs:
matching summary and a date-only DUE, with an out-of-band CANCELLED status. -/
def wR : VTodo :=
  { uid := some "a", summary := some "HW1",
    due := DueVal.dateOnly { year := 2024, month := 3, day := 1 },
    status := some "CANCELLED", description := none, categories := [] }

/-- Concrete local record matching `wR`: same summary, DUE given as the
datetime at midnight of the same day. -/
def wL : VTodo :=
  { uid := some "a", summary := some "HW1",
    due := DueVal.dt (midnight { year := 2024, month := 3, day := 1 }),
    status := none, description := none, categories := [] }

/-- Concrete local record mismatching `wR` on the summary. -/
def wL2 : VTodo :=
  { uid := some "a", summary := some "HW1 revised",
    due := DueVal.dateOnly { year := 2024, month := 3, day := 1 },
    status := none, description := none, categories := [] }

/-- Concrete local record whose uid is absent from the server map. -/
def wLb : VTodo :=
  { uid := some "b", summary := some "HW2", due := DueVal.absent,
    status := none, description := none, categories := [] }

/-- Concrete local record with no UID at all. -/
def wNone : VTodo :=
  { uid := none, summary := some "X", due := DueVal.absent,
    status := none, description := none, categories := [] }

/-- Concrete local record whose UID is present but the empty string. -/
def wEmpty : VTodo :=
  { uid := some "", summary := none, due := DueVal.absent,
    status := none, description := none, categories := [] }

/-- Concrete server record with an empty uid, dropped by the map build. -/
def wGhost : VTodo :=
  { uid := some "", summary := some "HW2", due := DueVal.absent,
    status := some "COMPLETED", description := none, categories := [] }

/-- Collaborator environment in which every call succeeds. -/
def wEnv : RecEnv :=
  { createRes := CreateOutcome.created, saveRes := SaveOutcome.saved }

/-- C6: the normalizer maps absent to absent, a date to its naive midnight
datetime, a datetime to itself, unwraps a wrapper exactly one level, and
yields absent on any value that is not (possibly after one unwrap) a date
or datetime; midnight carries no timezone. -/
theorem normalize_dt_cases :
    _normalize_dt DueVal.absent = none
    ∧ (∀ d : Datetime, _normalize_dt (DueVal.dt d) = some d)
    ∧ (∀ d : Date, _normalize_dt (DueVal.dateOnly d) = some (midnight d))
    ∧ (∀ d : Datetime, _normalize_dt (DueVal.wrapped (Inner.dt d)) = some d)
    ∧ (∀ d : Date,
        _normalize_dt (DueVal.wrapped (Inner.dateOnly d)) = some (midnight d))
    ∧ _normalize_dt (DueVal.wrapped Inner.other) = none
    ∧ _normalize_dt DueVal.other = none
    ∧ (∀ d : Date,
        midnight d = { year := d.year, month := d.month, day := d.day,
                       hour := 0, minute := 0, second := 0,
                       microsecond := 0, tz := none }) := by
  refine ⟨rfl, fun _ => rfl, fun _ => rfl, fun _ => rfl, fun _ => rfl,
    rfl, rfl, fun _ => rfl⟩

/-- C7: the normalizer is total — every input yields either absent or a
datetime, the exception branch is handled internally (a raising attribute
access yields absent), and absent compares equal to absent. -/
theorem normalize_dt_total :
    (∀ v : DueVal, _normalize_dt v = none ∨ ∃ d, _normalize_dt v = some d)
    ∧ _normalize_dt DueVal.raising = none
    ∧ _normalize_dt DueVal.absent = _normalize_dt DueVal.absent := by
  refine ⟨fun v => ?_, rfl, rfl⟩
  cases v with
  | absent => exact Or.inl rfl
  | dt d => exact Or.inr ⟨d, rfl⟩
  | dateOnly d => exact Or.inr ⟨midnight d, rfl⟩
  | wrapped inner =>
      cases inner with
      | dt d => exact Or.inr ⟨d, rfl⟩
      | dateOnly d => exact Or.inr ⟨midnight d, rfl⟩
      | other => exact Or.inl rfl
  | raising => exact Or.inl rfl
  | other => exact Or.inl rfl

/-- C9: `make_todo` prefixes the uid with the service name, copies the
assignment name into the summary and the due date as-is into DUE, sets
status COMPLETED exactly when the submission status is "Submitted" and
NEEDS-ACTION otherwise, and annotates with the source URL and the category
tags "Gradescope" and the course name. -/
theorem make_todo_fields (cid : String) (c : Course) (a : Assignment) :
    (make_todo cid c a).uid = some ("gradescope-" ++ a.assignment_id)
    ∧ (make_todo cid c a).summary = some a.name
    ∧ (make_todo cid c a).due = a.due_date
    ∧ ((make_todo cid c a).status = some "COMPLETED"
        ↔ a.submissions_status = "Submitted")
    ∧ (a.submissions_status ≠ "Submitted"
        → (make_todo cid c a).status = some "NEEDS-ACTION")
    ∧ (make_todo cid c a).description
        = some ("https://www.gradescope.com/courses/" ++ cid
                ++ "/assignments/" ++ a.assignment_id)
    ∧ "Gradescope" ∈ (make_todo cid c a).categories
    ∧ c.name ∈ (make_todo cid c a).categories := by
  refine ⟨rfl, rfl, rfl, ?_, ?_, rfl, ?_, ?_⟩
  · by_cases h : a.submissions_status = "Submitted"
    · simp [make_todo, h]
    · simp [make_todo, h]
  · intro h
    simp [make_todo, h]
  · simp [make_todo]
  · simp [make_todo]

/-- Witness for C9 at a concrete course and assignment. -/
theorem make_todo_fields_witness :
    (make_todo "123" { name := "Algorithms" }
      { assignment_id := "77", name := "HW1", due_date := DueVal.absent,
        submissions_status := "Submitted" }).status = some "COMPLETED" :=
  (make_todo_fields "123" { name := "Algorithms" }
    { assignment_id := "77", name := "HW1", due_date := DueVal.absent,
      submissions_status := "Submitted" }).2.2.2.1.mpr rfl

/-- Lookup after a dict insert: hit on the inserted key, unchanged
elsewhere. -/
theorem lookup_mapInsert (m : SMap) (u : String) (v : VTodo) (k : String) :
    lookupMap (mapInsert m u v) k = if k = u then some v else lookupMap m k := by
  induction m with
  | nil =>
      by_cases h : k = u
      · simp [mapInsert, lookupMap, h]
      · simp [mapInsert, lookupMap, h, Ne.symm h]
  | cons p rest ih =>
      rcases p with ⟨k0, v0⟩
      by_cases h0 : k0 = u <;> by_cases h : k0 = k
      · have hku : k = u := by rw [← h, h0]
        simp [mapInsert, lookupMap, h0, h, hku]
      · have hku : ¬k = u := fun he => h (h0.trans he.symm)
        simp [mapInsert, lookupMap, h0, h, hku, Ne.symm hku]
      · have hku : ¬k = u := fun he => h0 (h.trans he)
        simp [mapInsert, lookupMap, h0, h, hku]
      · simp [mapInsert, lookupMap, h0, h, ih]

/-- Lookup after an in-place STATUS mutation: the record under the mutated
key has its status replaced, every other key is unchanged. -/
theorem lookup_setStatus (m : SMap) (u st k : String) :
    lookupMap (setStatus m u st) k
      = if k = u then (lookupMap m u).map (fun v => { v with status := some st })
        else lookupMap m k := by
  induction m with
  | nil =>
      by_cases h : k = u <;> simp [setStatus, lookupMap, h]
  | cons p rest ih =>
      rcases p with ⟨k0, v0⟩
      by_cases h0 : k0 = u <;> by_cases h : k0 = k
      · have hku : k = u := by rw [← h, h0]
        simp [setStatus, lookupMap, h0, h, hku]
      · have hku : ¬k = u := fun he => h (h0.trans he.symm)
        simp [setStatus, lookupMap, h0, h, hku, Ne.symm hku]
      · have hku : ¬k = u := fun he => h0 (h.trans he)
        simp [setStatus, lookupMap, h0, h, hku]
      · simp [setStatus, lookupMap, h0, h, ih]

/-- The loop body on a record whose UID is absent: skipped before any map
access, map untouched. -/
theorem sync_step_skip (m : SMap) (t : VTodo) (e : RecEnv) (h : t.uid = none) :
    sync_step m t e = (Action.skipped none "local todo missing UID", m) := by
  simp [sync_step, h]

/-- The loop body on a uid absent from the server map: the create branch,
map untouched, action decided by the create collaborator outcome. -/
theorem sync_step_create (m : SMap) (t : VTodo) (e : RecEnv) (u : String)
    (hu : t.uid = some u) (hm : lookupMap m u = none) :
    sync_step m t e
      = ((match e.createRes with
          | CreateOutcome.created => Action.created u
          | CreateOutcome.attempted => Action.create_attempted u
          | CreateOutcome.threw s => Action.create_failed u s), m) := by
  rcases e with ⟨cr, sr⟩
  cases cr <;> simp [sync_step, hu, hm]

/-- The loop body on a matching pair: equal summaries (absent normalized to
the empty string) and equal normalized DUE give the preserve action carrying
the found status, with the map untouched. -/
theorem sync_step_preserve (m : SMap) (t : VTodo) (e : RecEnv) (u : String)
    (r : VTodo) (hu : t.uid = some u) (hm : lookupMap m u = some r)
    (hs : r.summary.getD "" = t.summary.getD "")
    (hd : _normalize_dt r.due = _normalize_dt t.due) :
    sync_step m t e = (Action.preserved_server_status u (statusStr r.status), m) := by
  simp [sync_step, hu, hm, hs, hd]

/-- The loop body on a mismatching pair: STATUS is set to NEEDS-ACTION on
the stored component, and the action is decided by the save collaborator
outcome. -/
theorem sync_step_mismatch (m : SMap) (t : VTodo) (e : RecEnv) (u : String)
    (r : VTodo) (hu : t.uid = some u) (hm : lookupMap m u = some r)
    (hmis : ¬(r.summary.getD "" = t.summary.getD ""
              ∧ _normalize_dt r.due = _normalize_dt t.due)) :
    sync_step m t e
      = ((match e.saveRes with
          | SaveOutcome.saved => Action.set_needs_action u
          | SaveOutcome.attempted => Action.set_needs_action_attempted u
          | SaveOutcome.threw s => Action.update_failed u s),
         setStatus m u "NEEDS-ACTION") := by
  have hcond : ¬(r.summary.getD "" = t.summary.getD ""
      ∧ (_normalize_dt r.due = _normalize_dt t.due
         ∨ (_normalize_dt r.due = none ∧ _normalize_dt t.due = none))) := by
    rintro ⟨h1, h2⟩
    apply hmis
    refine ⟨h1, ?_⟩
    rcases h2 with h2 | ⟨ha, hb⟩
    · exact h2
    · rw [ha, hb]
  rcases e with ⟨cr, sr⟩
  cases sr <;> simp [sync_step, hu, hm, hcond]

/-- The action produced for a record always carries that record's uid. -/
theorem actionUid_sync_step (m : SMap) (t : VTodo) (e : RecEnv) :
    actionUid (sync_step m t e).1 = t.uid := by
  rcases e with ⟨cr, sr⟩
  cases ht : t.uid with
  | none => simp [sync_step, ht, actionUid]
  | some u =>
      cases hm : lookupMap m u with
      | none => cases cr <;> simp [sync_step, ht, hm, actionUid]
      | some r =>
          by_cases hc : (r.summary).getD "" = (t.summary).getD ""
              ∧ (_normalize_dt r.due = _normalize_dt t.due
                 ∨ (_normalize_dt r.due = none ∧ _normalize_dt t.due = none))
          · simp [sync_step, ht, hm, hc, actionUid]
          · cases sr <;> simp [sync_step, ht, hm, hc, actionUid]

/-- The loop body either leaves the map alone or applies a single STATUS
mutation keyed by the record's own uid. -/
theorem sync_step_snd (m : SMap) (t : VTodo) (e : RecEnv) :
    (sync_step m t e).2 = m
      ∨ ∃ u, t.uid = some u ∧ (sync_step m t e).2 = setStatus m u "NEEDS-ACTION" := by
  rcases e with ⟨cr, sr⟩
  cases ht : t.uid with
  | none => left; simp [sync_step, ht]
  | some u =>
      cases hm : lookupMap m u with
      | none => left; cases cr <;> simp [sync_step, ht, hm]
      | some r =>
          by_cases hc : (r.summary).getD "" = (t.summary).getD ""
              ∧ (_normalize_dt r.due = _normalize_dt t.due
                 ∨ (_normalize_dt r.due = none ∧ _normalize_dt t.due = none))
          · left; simp [sync_step, ht, hm, hc]
          · right
            refine ⟨u, rfl, ?_⟩
            cases sr <;> simp [sync_step, ht, hm, hc]

/-- Unfolding of the loop on a cons. -/
theorem sync_todos_cons (m : SMap) (t : VTodo) (e : RecEnv)
    (rest : List (VTodo × RecEnv)) :
    sync_todos m ((t, e) :: rest)
      = ((sync_step m t e).1 :: (sync_todos (sync_step m t e).2 rest).1,
         (sync_todos (sync_step m t e).2 rest).2) := rfl

/-- The loop over an appended list runs the first part, then the second
part from the state the first part left behind. -/
theorem sync_todos_append (m : SMap) (xs ys : List (VTodo × RecEnv)) :
    sync_todos m (xs ++ ys)
      = ((sync_todos m xs).1 ++ (sync_todos (sync_todos m xs).2 ys).1,
         (sync_todos (sync_todos m xs).2 ys).2) := by
  induction xs generalizing m with
  | nil => simp [sync_todos]
  | cons x rest ih =>
      rcases x with ⟨t, e⟩
      simp [sync_todos_cons, List.cons_append, ih]

/-- A step on a record with a different uid leaves the lookup at `u`
unchanged. -/
theorem sync_step_lookup_ne (m : SMap) (t : VTodo) (e : RecEnv) (u : String)
    (h : t.uid ≠ some u) :
    lookupMap (sync_step m t e).2 u = lookupMap m u := by
  rcases sync_step_snd m t e with h1 | ⟨u2, hu2, h1⟩
  · rw [h1]
  · rw [h1, lookup_setStatus]
    have : u ≠ u2 := by
      intro he; exact h (he ▸ hu2)
    simp [this]

/-- A run over records none of which carries uid `u` leaves the lookup at
`u` unchanged. -/
theorem sync_todos_lookup_ne (m : SMap) (todos : List (VTodo × RecEnv))
    (u : String) (h : ∀ x ∈ todos, x.1.uid ≠ some u) :
    lookupMap (sync_todos m todos).2 u = lookupMap m u := by
  induction todos generalizing m with
  | nil => rfl
  | cons x rest ih =>
      rcases x with ⟨t, e⟩
      rw [sync_todos_cons]
      have h1 : t.uid ≠ some u := h (t, e) (List.mem_cons_self _ _)
      have h2 : ∀ x ∈ rest, x.1.uid ≠ some u := fun x hx => h x (List.mem_cons_of_mem _ hx)
      rw [ih _ h2, sync_step_lookup_ne m t e u h1]

/-- A step never makes a uid appear in the map. -/
theorem sync_step_lookup_none (m : SMap) (t : VTodo) (e : RecEnv) (u : String)
    (h : lookupMap m u = none) :
    lookupMap (sync_step m t e).2 u = none := by
  rcases sync_step_snd m t e with h1 | ⟨u2, _, h1⟩
  · rw [h1, h]
  · rw [h1, lookup_setStatus]
    by_cases he : u = u2
    · subst he; simp [h]
    · simp [he, h]

/-- A run never makes a uid appear in the map. -/
theorem sync_todos_lookup_none (m : SMap) (todos : List (VTodo × RecEnv))
    (u : String) (h : lookupMap m u = none) :
    lookupMap (sync_todos m todos).2 u = none := by
  induction todos generalizing m with
  | nil => exact h
  | cons x rest ih =>
      rcases x with ⟨t, e⟩
      rw [sync_todos_cons]
      exact ih _ (sync_step_lookup_none m t e u h)

/-- Actions of records with a different uid never pass the uid filter. -/
theorem sync_todos_filter_nil (m : SMap) (todos : List (VTodo × RecEnv))
    (u : String) (h : ∀ x ∈ todos, x.1.uid ≠ some u) :
    (sync_todos m todos).1.filter (byUid u) = [] := by
  induction todos generalizing m with
  | nil => rfl
  | cons x rest ih =>
      rcases x with ⟨t, e⟩
      rw [sync_todos_cons]
      have h1 : t.uid ≠ some u := h (t, e) (List.mem_cons_self _ _)
      have h2 : ∀ x ∈ rest, x.1.uid ≠ some u := fun x hx => h x (List.mem_cons_of_mem _ hx)
      have hb : byUid u (sync_step m t e).1 = false := by
        simp [byUid, actionUid_sync_step, h1]
      simp [List.filter, hb, ih _ h2]

/-- One action is emitted per local record. -/
theorem sync_todos_length (m : SMap) (todos : List (VTodo × RecEnv)) :
    (sync_todos m todos).1.length = todos.length := by
  induction todos generalizing m with
  | nil => rfl
  | cons x rest ih =>
      rcases x with ⟨t, e⟩
      rw [sync_todos_cons]
      simp [ih]

/-- The map build over an appended list processes the first part first. -/
theorem buildServerMapAux_append (m : SMap) (xs ys : List ServerItem) :
    buildServerMapAux m (xs ++ ys)
      = buildServerMapAux (buildServerMapAux m xs) ys := by
  induction xs generalizing m with
  | nil => rfl
  | cons i rest ih =>
      cases i with
      | parseError => simp [buildServerMapAux, ih]
      | parsed v =>
          cases hv : v.uid with
          | none => simp [buildServerMapAux, hv, ih]
          | some u =>
              by_cases hu : u = "" <;> simp [buildServerMapAux, hv, hu, ih]

/-- A parse failure or an absent/empty uid contributes nothing to the map. -/
theorem buildServerMapAux_bad (m : SMap) (i : ServerItem)
    (rest : List ServerItem) (h : badItem i) :
    buildServerMapAux m (i :: rest) = buildServerMapAux m rest := by
  rcases h with h | ⟨v, hv, huid⟩
  · subst h; rfl
  · subst hv
    rcases huid with h2 | h2 <;> simp [buildServerMapAux, h2]

/-- A server list of only dropped items builds an unchanged map. -/
theorem buildServerMapAux_all_bad (m : SMap) (items : List ServerItem)
    (h : ∀ i ∈ items, badItem i) :
    buildServerMapAux m items = m := by
  induction items with
  | nil => rfl
  | cons i rest ih =>
      rw [buildServerMapAux_bad m i rest (h i (List.mem_cons_self _ _))]
      exact ih (fun j hj => h j (List.mem_cons_of_mem _ hj))

/-- The empty string never becomes a key of the uid map. -/
theorem lookup_buildServerMapAux_empty (items : List ServerItem) (m : SMap)
    (h : lookupMap m "" = none) :
    lookupMap (buildServerMapAux m items) "" = none := by
  induction items generalizing m with
  | nil => exact h
  | cons i rest ih =>
      cases i with
      | parseError => exact ih m h
      | parsed v =>
          cases hv : v.uid with
          | none =>
              simp only [buildServerMapAux, hv]
              exact ih m h
          | some u =>
              by_cases hu : u = ""
              · simp only [buildServerMapAux, hv]
                rw [if_pos hu]
                exact ih m h
              · simp only [buildServerMapAux, hv]
                rw [if_neg hu]
                apply ih
                rw [lookup_mapInsert, if_neg (fun he => hu he.symm)]
                exact h

/-- The empty string is absent from the built server map. -/
theorem lookup_buildServerMap_empty (items : List ServerItem) :
    lookupMap (buildServerMap items) "" = none :=
  lookup_buildServerMapAux_empty items [] rfl

/-- Run decomposition around one distinguished record: when no other record
carries uid `u` and the distinguished step produces action `a` and map `m2`,
the run's only `u` action is `a` and the final lookup at `u` is the lookup
in `m2`. -/
theorem sync_run_at (m : SMap) (pre post : List (VTodo × RecEnv)) (L : VTodo)
    (e : RecEnv) (u : String) (a : Action) (m2 : SMap)
    (hstep : sync_step (sync_todos m pre).2 L e = (a, m2))
    (hpre : ∀ x ∈ pre, x.1.uid ≠ some u)
    (hpost : ∀ x ∈ post, x.1.uid ≠ some u)
    (ha : byUid u a = true) :
    (sync_todos m (pre ++ (L, e) :: post)).1.filter (byUid u) = [a]
    ∧ lookupMap (sync_todos m (pre ++ (L, e) :: post)).2 u = lookupMap m2 u := by
  rw [sync_todos_append, sync_todos_cons, hstep]
  constructor
  · show List.filter (byUid u)
        ((sync_todos m pre).1 ++ a :: (sync_todos m2 post).1) = [a]
    rw [List.filter_append, sync_todos_filter_nil m pre u hpre, List.nil_append]
    have hf := sync_todos_filter_nil m2 post u hpost
    simp [List.filter_cons, ha, hf]
  · show lookupMap (sync_todos m2 post).2 u = lookupMap m2 u
    exact sync_todos_lookup_ne m2 post u hpost

/-- One step changes a stored server record at most in its STATUS field,
and then only to NEEDS-ACTION. -/
theorem sync_step_statusOnly (m : SMap) (t : VTodo) (e : RecEnv) (u : String)
    (R : VTodo) (hR : lookupMap m u = some R) :
    ∃ R2, lookupMap (sync_step m t e).2 u = some R2 ∧ statusOnlyChange R R2 := by
  rcases sync_step_snd m t e with h1 | ⟨u2, _, h1⟩
  · exact ⟨R, by rw [h1, hR], rfl, rfl, rfl, rfl, rfl, Or.inl rfl⟩
  · rw [h1, lookup_setStatus]
    by_cases he : u = u2
    · refine ⟨{ R with status := some "NEEDS-ACTION" }, ?_,
        rfl, rfl, rfl, rfl, rfl, Or.inr rfl⟩
      rw [if_pos he, ← he, hR]
      rfl
    · exact ⟨R, by rw [if_neg he, hR], rfl, rfl, rfl, rfl, rfl, Or.inl rfl⟩

/-- `statusOnlyChange` composes across successive steps. -/
theorem statusOnlyChange_trans (a b c : VTodo)
    (h1 : statusOnlyChange a b) (h2 : statusOnlyChange b c) :
    statusOnlyChange a c := by
  obtain ⟨u1, s1, d1, de1, c1, st1⟩ := h1
  obtain ⟨u2, s2, d2, de2, c2, st2⟩ := h2
  refine ⟨u2.trans u1, s2.trans s1, d2.trans d1, de2.trans de1, c2.trans c1, ?_⟩
  rcases st2 with st2 | st2
  · rw [st2]; exact st1
  · exact Or.inr st2

/-- C1: when the server map holds a record with the local uid whose summary
(absent normalized to "") and normalized DUE both match the local record,
the run emits exactly one preserve action for that record, carrying the
status as found, and the server record — its STATUS included, whatever its
prior value — is left exactly as it was. -/
theorem sync_preserves_match_status
    (m : SMap) (pre post : List (VTodo × RecEnv)) (L : VTodo) (e : RecEnv)
    (u : String) (R : VTodo)
    (hu : L.uid = some u)
    (hR : lookupMap m u = some R)
    (hsum : R.summary.getD "" = L.summary.getD "")
    (hdue : _normalize_dt R.due = _normalize_dt L.due)
    (hdisj : ∀ x ∈ pre ++ post, x.1.uid ≠ some u) :
    (sync_todos m (pre ++ (L, e) :: post)).1.filter (byUid u)
        = [Action.preserved_server_status u (statusStr R.status)]
    ∧ lookupMap (sync_todos m (pre ++ (L, e) :: post)).2 u = some R := by
  have hpre : ∀ x ∈ pre, x.1.uid ≠ some u :=
    fun x hx => hdisj x (List.mem_append_left _ hx)
  have hpost : ∀ x ∈ post, x.1.uid ≠ some u :=
    fun x hx => hdisj x (List.mem_append_right _ hx)
  have hm1 : lookupMap (sync_todos m pre).2 u = some R := by
    rw [sync_todos_lookup_ne m pre u hpre]; exact hR
  have hstep := sync_step_preserve (sync_todos m pre).2 L e u R hu hm1 hsum hdue
  have hrun := sync_run_at m pre post L e u
    (Action.preserved_server_status u (statusStr R.status)) (sync_todos m pre).2
    hstep hpre hpost (by simp [byUid, actionUid])
  exact ⟨hrun.1, by rw [hrun.2]; exact hm1⟩

/-- Witness for C1 at spec scenario 1: matching title, date-only server DUE
against midnight local DUE, CANCELLED survives. -/
theorem sync_preserves_match_status_witness :
    (sync_todos [("a", wR)] ([] ++ (wL, wEnv) :: [])).1.filter (byUid "a")
        = [Action.preserved_server_status "a" "CANCELLED"]
    ∧ lookupMap (sync_todos [("a", wR)] ([] ++ (wL, wEnv) :: [])).2 "a"
        = some wR :=
  sync_preserves_match_status [("a", wR)] [] [] wL wEnv "a" wR rfl (by decide)
    (by decide) (by decide) (by simp)

/-- C2: when the server map holds a record with the local uid but the
summary or the normalized DUE differs, and the save collaborator does not
throw for that record, the run emits exactly one mark-needs-attention
action for it and the server record's STATUS is NEEDS-ACTION afterwards,
whatever its prior value (including when it already was NEEDS-ACTION). -/
theorem sync_marks_mismatch
    (m : SMap) (pre post : List (VTodo × RecEnv)) (L : VTodo) (e : RecEnv)
    (u : String) (R : VTodo)
    (hu : L.uid = some u)
    (hR : lookupMap m u = some R)
    (hmis : ¬(R.summary.getD "" = L.summary.getD ""
              ∧ _normalize_dt R.due = _normalize_dt L.due))
    (hok : ∀ s, e.saveRes ≠ SaveOutcome.threw s)
    (hdisj : ∀ x ∈ pre ++ post, x.1.uid ≠ some u) :
    (∃ a, (sync_todos m (pre ++ (L, e) :: post)).1.filter (byUid u) = [a]
          ∧ isMarkNA u a = true)
    ∧ lookupMap (sync_todos m (pre ++ (L, e) :: post)).2 u
        = some { R with status := some "NEEDS-ACTION" } := by
  have hpre : ∀ x ∈ pre, x.1.uid ≠ some u :=
    fun x hx => hdisj x (List.mem_append_left _ hx)
  have hpost : ∀ x ∈ post, x.1.uid ≠ some u :=
    fun x hx => hdisj x (List.mem_append_right _ hx)
  have hm1 : lookupMap (sync_todos m pre).2 u = some R := by
    rw [sync_todos_lookup_ne m pre u hpre]; exact hR
  have hm2 : lookupMap (setStatus (sync_todos m pre).2 u "NEEDS-ACTION") u
      = some { R with status := some "NEEDS-ACTION" } := by
    rw [lookup_setStatus, if_pos rfl, hm1]; rfl
  rcases e with ⟨cr, sr⟩
  cases sr with
  | threw s => exact absurd rfl (hok s)
  | saved =>
      have hstep : sync_step (sync_todos m pre).2 L ⟨cr, SaveOutcome.saved⟩
          = (Action.set_needs_action u,
             setStatus (sync_todos m pre).2 u "NEEDS-ACTION") :=
        sync_step_mismatch (sync_todos m pre).2 L ⟨cr, SaveOutcome.saved⟩ u R hu hm1 hmis
      have hrun := sync_run_at m pre post L ⟨cr, SaveOutcome.saved⟩ u
        (Action.set_needs_action u)
        (setStatus (sync_todos m pre).2 u "NEEDS-ACTION")
        hstep hpre hpost (by simp [byUid, actionUid])
      exact ⟨⟨Action.set_needs_action u, hrun.1, by simp [isMarkNA]⟩,
        by rw [hrun.2]; exact hm2⟩
  | attempted =>
      have hstep : sync_step (sync_todos m pre).2 L ⟨cr, SaveOutcome.attempted⟩
          = (Action.set_needs_action_attempted u,
             setStatus (sync_todos m pre).2 u "NEEDS-ACTION") :=
        sync_step_mismatch (sync_todos m pre).2 L ⟨cr, SaveOutcome.attempted⟩ u R hu hm1 hmis
      have hrun := sync_run_at m pre post L ⟨cr, SaveOutcome.attempted⟩ u
        (Action.set_needs_action_attempted u)
        (setStatus (sync_todos m pre).2 u "NEEDS-ACTION")
        hstep hpre hpost (by simp [byUid, actionUid])
      exact ⟨⟨Action.set_needs_action_attempted u, hrun.1, by simp [isMarkNA]⟩,
        by rw [hrun.2]; exact hm2⟩

/-- Witness for C2 at spec scenario 2: the title differs, the status is
forced to NEEDS-ACTION over the prior CANCELLED. -/
theorem sync_marks_mismatch_witness :
    (∃ a, (sync_todos [("a", wR)] ([] ++ (wL2, wEnv) :: [])).1.filter (byUid "a")
            = [a]
          ∧ isMarkNA "a" a = true)
    ∧ lookupMap (sync_todos [("a", wR)] ([] ++ (wL2, wEnv) :: [])).2 "a"
        = some { wR with status := some "NEEDS-ACTION" } :=
  sync_marks_mismatch [("a", wR)] [] [] wL2 wEnv "a" wR rfl (by decide)
    (by decide) (fun s hs => SaveOutcome.noConfusion hs) (by simp)

/-- C3: a local record whose uid is not a key of the server map takes the
create branch: if the create collaborator does not throw, the run emits
exactly one create action for it and its step leaves the in-memory server
state completely untouched. -/
theorem sync_creates_absent
    (m : SMap) (pre post : List (VTodo × RecEnv)) (L : VTodo) (e : RecEnv)
    (u : String)
    (hu : L.uid = some u)
    (habs : lookupMap m u = none)
    (hok : ∀ s, e.createRes ≠ CreateOutcome.threw s)
    (hdisj : ∀ x ∈ pre ++ post, x.1.uid ≠ some u) :
    ∃ a, isCreateAct u a = true
      ∧ sync_step (sync_todos m pre).2 L e = (a, (sync_todos m pre).2)
      ∧ (sync_todos m (pre ++ (L, e) :: post)).1.filter (byUid u) = [a] := by
  have hpre : ∀ x ∈ pre, x.1.uid ≠ some u :=
    fun x hx => hdisj x (List.mem_append_left _ hx)
  have hpost : ∀ x ∈ post, x.1.uid ≠ some u :=
    fun x hx => hdisj x (List.mem_append_right _ hx)
  have hm1 : lookupMap (sync_todos m pre).2 u = none :=
    sync_todos_lookup_none m pre u habs
  rcases e with ⟨cr, sr⟩
  cases cr with
  | threw s => exact absurd rfl (hok s)
  | created =>
      have hstep : sync_step (sync_todos m pre).2 L ⟨CreateOutcome.created, sr⟩
          = (Action.created u, (sync_todos m pre).2) :=
        sync_step_create (sync_todos m pre).2 L ⟨CreateOutcome.created, sr⟩ u hu hm1
      exact ⟨Action.created u, by simp [isCreateAct], hstep,
        (sync_run_at m pre post L ⟨CreateOutcome.created, sr⟩ u (Action.created u)
          (sync_todos m pre).2 hstep hpre hpost (by simp [byUid, actionUid])).1⟩
  | attempted =>
      have hstep : sync_step (sync_todos m pre).2 L ⟨CreateOutcome.attempted, sr⟩
          = (Action.create_attempted u, (sync_todos m pre).2) :=
        sync_step_create (sync_todos m pre).2 L ⟨CreateOutcome.attempted, sr⟩ u hu hm1
      exact ⟨Action.create_attempted u, by simp [isCreateAct], hstep,
        (sync_run_at m pre post L ⟨CreateOutcome.attempted, sr⟩ u
          (Action.create_attempted u)
          (sync_todos m pre).2 hstep hpre hpost (by simp [byUid, actionUid])).1⟩

/-- Witness for C3 at spec scenario 3: uid "b" absent from the server map
gives a create action against an untouched map. -/
theorem sync_creates_absent_witness :
    ∃ a, isCreateAct "b" a = true
      ∧ sync_step (sync_todos [("a", wR)] []).2 wLb wEnv
          = (a, (sync_todos [("a", wR)] []).2)
      ∧ (sync_todos [("a", wR)] ([] ++ (wLb, wEnv) :: [])).1.filter (byUid "b")
          = [a] :=
  sync_creates_absent [("a", wR)] [] [] wLb wEnv "b" rfl (by decide)
    (fun s hs => CreateOutcome.noConfusion hs) (by simp)

/-- Counterexample to C4 as stated: a local todo whose UID is present but
equal to the empty string is not skipped — the loop emits a created action
for it, and no skipped action appears in the result. -/
theorem empty_uid_not_skipped_cex :
    (sync_todos [] [(wEmpty, wEnv)]).1 = [Action.created ""]
    ∧ (sync_todos [] [(wEmpty, wEnv)]).1.filter isSkippedAct = [] :=
  ⟨rfl, rfl⟩

/-- C4 (amended): only a local todo whose UID is absent (None) is skipped —
with the literal reason string, without consulting the server map (the map
passes through any value unchanged); a local todo whose UID is the empty
string instead proceeds to the lookup and, since empty uids never enter the
built server map, takes the create branch. -/
theorem skip_only_absent_uid
    (m : SMap) (t : VTodo) (e : RecEnv) (rest : List (VTodo × RecEnv))
    (items : List ServerItem) (t2 : VTodo) (e2 : RecEnv)
    (h : t.uid = none) (h2 : t2.uid = some "") :
    sync_todos m ((t, e) :: rest)
      = (Action.skipped none "local todo missing UID" :: (sync_todos m rest).1,
         (sync_todos m rest).2)
    ∧ isCreatePath (sync_step (buildServerMap items) t2 e2).1 = true := by
  constructor
  · rw [sync_todos_cons, sync_step_skip m t e h]
  · have habs : lookupMap (buildServerMap items) "" = none :=
      lookup_buildServerMap_empty items
    have hstep := sync_step_create (buildServerMap items) t2 e2 "" h2 habs
    rw [hstep]
    rcases e2 with ⟨cr, sr⟩
    cases cr <;> rfl

/-- Witness for the amended C4: a UID-less todo is skipped, and an
empty-uid todo takes the create path even though an identical-uid server
record was fetched (and dropped by the map build). -/
theorem skip_only_absent_uid_witness :
    sync_todos [] [(wNone, wEnv)]
      = (Action.skipped none "local todo missing UID" :: (sync_todos [] []).1,
         (sync_todos [] []).2)
    ∧ isCreatePath (sync_step (buildServerMap [ServerItem.parsed wGhost])
        wEmpty wEnv).1 = true :=
  skip_only_absent_uid [] wNone wEnv [] [ServerItem.parsed wGhost] wEmpty wEnv
    rfl rfl

/-- C5: across one whole run, every server record keeps its uid, summary,
DUE, description and categories byte-for-byte; its STATUS is either
unchanged or the literal NEEDS-ACTION — the only field the core ever
mutates, and the only value it ever writes. -/
theorem sync_status_only_frame (m : SMap) (todos : List (VTodo × RecEnv))
    (u : String) (R : VTodo) (hR : lookupMap m u = some R) :
    ∃ R2, lookupMap (sync_todos m todos).2 u = some R2
      ∧ statusOnlyChange R R2 := by
  induction todos generalizing m R with
  | nil => exact ⟨R, hR, rfl, rfl, rfl, rfl, rfl, Or.inl rfl⟩
  | cons x rest ih =>
      rcases x with ⟨t, e⟩
      rw [sync_todos_cons]
      obtain ⟨R1, hR1, hch1⟩ := sync_step_statusOnly m t e u R hR
      obtain ⟨R2, hR2, hch2⟩ := ih (sync_step m t e).2 R1 hR1
      exact ⟨R2, hR2, statusOnlyChange_trans R R1 R2 hch1 hch2⟩

/-- Witness for C5 on a run containing a mismatching record. -/
theorem sync_status_only_frame_witness :
    ∃ R2, lookupMap (sync_todos [("a", wR)] [(wL2, wEnv)]).2 "a" = some R2
      ∧ statusOnlyChange wR R2 :=
  sync_status_only_frame [("a", wR)] [(wL2, wEnv)] "a" wR (by decide)

/-- C8: the run always yields one action per local record (a failing record
never aborts the batch), a throwing create call becomes a create_failed
action carrying the message with the map untouched, and a throwing save
call becomes an update_failed action carrying the message. -/
theorem sync_collab_failures :
    (∀ (m : SMap) (todos : List (VTodo × RecEnv)),
        (sync_todos m todos).1.length = todos.length)
    ∧ (∀ (m : SMap) (t : VTodo) (e : RecEnv) (u msg : String),
        t.uid = some u → lookupMap m u = none
        → e.createRes = CreateOutcome.threw msg
        → sync_step m t e = (Action.create_failed u msg, m))
    ∧ (∀ (m : SMap) (t : VTodo) (e : RecEnv) (u msg : String) (r : VTodo),
        t.uid = some u → lookupMap m u = some r
        → ¬(r.summary.getD "" = t.summary.getD ""
            ∧ _normalize_dt r.due = _normalize_dt t.due)
        → e.saveRes = SaveOutcome.threw msg
        → (sync_step m t e).1 = Action.update_failed u msg) := by
  refine ⟨sync_todos_length, ?_, ?_⟩
  · intro m t e u msg hu hm he
    rw [sync_step_create m t e u hu hm, he]
  · intro m t e u msg r hu hm hmis he
    rw [sync_step_mismatch m t e u r hu hm hmis, he]

/-- Witness for C8: a throwing create call on one concrete record. -/
theorem sync_collab_failures_witness :
    sync_step [] wLb
        { createRes := CreateOutcome.threw "boom", saveRes := SaveOutcome.saved }
      = (Action.create_failed "b" "boom", []) :=
  sync_collab_failures.2.1 [] wLb
    { createRes := CreateOutcome.threw "boom", saveRes := SaveOutcome.saved }
    "b" "boom" rfl rfl rfl

/-- C10: a server todo that fails to parse, or whose extracted uid is
absent or empty, contributes nothing to the uid map; consequently a local
record is classified as absent-remotely (create branch) even when such a
server record exists — e.g. one with identical content. -/
theorem server_map_omits_bad :
    (∀ (pre post : List ServerItem) (i : ServerItem), badItem i
        → buildServerMap (pre ++ i :: post) = buildServerMap (pre ++ post))
    ∧ (∀ (items : List ServerItem) (t : VTodo) (e : RecEnv) (u : String),
        (∀ i ∈ items, badItem i) → t.uid = some u
        → e.createRes = CreateOutcome.created
        → (sync_todos (buildServerMap items) [(t, e)]).1 = [Action.created u]) := by
  constructor
  · intro pre post i hbad
    unfold buildServerMap
    rw [buildServerMapAux_append, buildServerMapAux_bad _ i post hbad,
        ← buildServerMapAux_append]
  · intro items t e u hbad hu he
    have hm : buildServerMap items = [] := buildServerMapAux_all_bad [] items hbad
    rw [hm, sync_todos_cons]
    have hstep := sync_step_create [] t e u hu rfl
    show (sync_step [] t e).1 :: (sync_todos (sync_step [] t e).2 []).1
        = [Action.created u]
    rw [hstep, he]
    rfl

/-- Witness for C10: a server record with only an empty uid is dropped and
the local record with fresh uid "b" is created. -/
theorem server_map_omits_bad_witness :
    (sync_todos (buildServerMap [ServerItem.parsed wGhost]) [(wLb, wEnv)]).1
      = [Action.created "b"] :=
  server_map_omits_bad.2 [ServerItem.parsed wGhost] wLb wEnv "b"
    (by intro i hi
        simp only [List.mem_singleton] at hi
        subst hi
        exact Or.inr ⟨wGhost, rfl, Or.inr rfl⟩)
    rfl rfl

end CCG
